import Mathlib

/-
Verification development for create_model_file.py (FLARE model-file builder).

The script reads a FLARE .panels file, clusters the panel-probability vectors
with a Gaussian mixture (sklearn, external), derives per-ancestry switch rates
(make_rho), computes lag-1 label correlations (autoc), and writes a model file.
We embed the script's own computations shallowly: rational numbers stand for
the exact values of the float arithmetic where the code is rational
(parsing state machine, make_rho, column reinsertion), and real numbers where
the code uses transcendental operations (np.corrcoef's square root, np.log).
The sklearn GaussianMixture fit itself is an external library call; its fitted
means and predicted labels enter our definitions as parameters.
-/

namespace FlareModel

/-! ## Ancestry clusterer: reinsertion of the dropped column (cluster, lines 94-96)

The code drops one column before fitting and afterwards re-inserts it into the
fitted component means: extra_column = [1.0-sum(x) for x in myclust.means_];
param = np.insert(myclust.means_, whichdrop, extra_column, axis=1). -/

/-- One value per fitted mean row: 1 minus the row's sum
(the source's extra_column). -/
def extraColumn (means : List (List ℚ)) : List ℚ :=
  means.map (fun x => 1 - x.sum)

/-- Insert value v at position idx of a row (np.insert on axis 1, one row).
np.insert requires idx ≤ row length; beyond that this total version appends. -/
def insertCol (row : List ℚ) (idx : Nat) (v : ℚ) : List ℚ :=
  row.take idx ++ [v] ++ row.drop idx

/-- The K×P parameter matrix returned by cluster: the fitted (P-1)-dimensional
means with the dropped column re-inserted at position whichdrop. -/
def clusterParam (means : List (List ℚ)) (whichdrop : Nat) : List (List ℚ) :=
  (means.zip (extraColumn means)).map (fun p => insertCol p.1 whichdrop p.2)

theorem insertCol_sum (row : List ℚ) (idx : Nat) (v : ℚ) :
    (insertCol row idx v).sum = row.sum + v := by
  simp [insertCol]
  rw [add_comm v (row.drop idx).sum, ← add_assoc, List.sum_take_add_sum_drop]

theorem clusterParam_eq_map (means : List (List ℚ)) (whichdrop : Nat) :
    clusterParam means whichdrop
      = means.map (fun x => insertCol x whichdrop (1 - x.sum)) := by
  have hzip : means.zip (extraColumn means)
      = means.map (fun x => (x, 1 - x.sum)) := by
    have h := List.zip_map' (fun x : List ℚ => x) (fun x : List ℚ => 1 - x.sum)
      means
    simpa [extraColumn] using h
  simp [clusterParam, hzip]

/-- C1: every row of the K×P probability matrix returned by cluster sums
exactly to 1: the re-inserted dropped column equals 1 minus the sum of the
fitted (P−1)-dimensional mean row, so each row is compositionally consistent. -/
theorem clusterParam_row_sum_one (means : List (List ℚ)) (whichdrop : Nat)
    (row : List ℚ) (hrow : row ∈ clusterParam means whichdrop) :
    row.sum = 1 := by
  rw [clusterParam_eq_map] at hrow
  rcases List.mem_map.mp hrow with ⟨x, _, rfl⟩
  rw [insertCol_sum]
  ring

theorem clusterParam_half_mem :
    [(1:ℚ)/2, 1/2] ∈ clusterParam [[(1:ℚ)/2]] 0 := by
  rw [clusterParam_eq_map]
  simp [insertCol]
  norm_num

/-- Witness for C1 at a concrete fitted mean: means = [[1/2]], drop index 0. -/
theorem clusterParam_row_sum_one_witness :
    [(1:ℚ)/2, 1/2] ∈ clusterParam [[(1:ℚ)/2]] 0
      ∧ List.sum [(1:ℚ)/2, 1/2] = 1 :=
  ⟨clusterParam_half_mem,
    clusterParam_row_sum_one [[(1:ℚ)/2]] 0 _ clusterParam_half_mem⟩

/-- C5 counterexample: the entries of the returned K×P matrix are not all in
[0,1]. With a fitted mean row [7/10, 3/5] (row sum 13/10 > 1) the re-inserted
column is -(3/10), a negative entry. -/
theorem clusterParam_entry_negative_cx :
    clusterParam [[(7:ℚ)/10, 3/5]] 0 = [[-(3/10), 7/10, 3/5]]
      ∧ (-(3:ℚ)/10) < 0 := by
  constructor
  · rw [clusterParam_eq_map]
    simp [insertCol]
    norm_num
  · norm_num

/-- C5 amended: rows of the returned matrix sum to 1, but entries need not lie
in [0,1]: whenever a fitted mean row sums to more than 1, the re-inserted
dropped-column entry is negative (the code does not clamp it). -/
theorem clusterParam_has_negative_entry (row : List ℚ) (idx : Nat)
    (hs : 1 < row.sum) :
    ∃ r ∈ clusterParam [row] idx, ∃ x ∈ r, x < 0 := by
  refine ⟨insertCol row idx (1 - row.sum), ?_, 1 - row.sum, ?_, by linarith⟩
  · rw [clusterParam_eq_map]
    simp
  · simp [insertCol]

/-- Witness for the amended C5 at the concrete fitted mean [7/10, 3/5]. -/
theorem clusterParam_has_negative_entry_witness :
    1 < List.sum [(7:ℚ)/10, 3/5]
      ∧ ∃ r ∈ clusterParam [[(7:ℚ)/10, 3/5]] 0, ∃ x ∈ r, x < 0 :=
  ⟨by norm_num, clusterParam_has_negative_entry [(7:ℚ)/10, 3/5] 0 (by norm_num)⟩

/-! ## Input-reading loop (module level, lines 31-69)

One body record of the .panels file, already split into fields: locindex =
int(bits[0]), chrom = bits[1].split(':')[0], hapindex = int(bits[2]),
rho = float(bits[3]), probs = [float(x) for x in bits[4:]]. -/

structure PanelRecord where
  locindex : Int
  chrom : String
  hapindex : Int
  rho : ℚ
  probs : List ℚ
deriving DecidableEq

/-- The module-level mutable variables of the reading loop. oldchrom starts
as the integer -1 in the source, which can never equal a chromosome string;
none models that initial value. oldhapindices is first read only after it has
been assigned (guarded by hapindices being nonempty), so [] is a safe start. -/
structure ParseState where
  panelprobs : List (List (List ℚ))
  rhovals : List (List ℚ)
  panelprobschrom : List (List (List ℚ))
  rhovalschrom : List (List ℚ)
  oldlocindex : Int
  hapindices : List Int
  oldhapindices : List Int
  oldchrom : Option String
deriving DecidableEq

def initState : ParseState :=
  { panelprobs := [], rhovals := [], panelprobschrom := [], rhovalschrom := [],
    oldlocindex := -1, hapindices := [], oldhapindices := [],
    oldchrom := none }

/-- The source's consistency test
any([x!=y for x,y in zip(hapindices,oldhapindices)]): zip truncates to the
shorter of the two sequences. -/
def hapMismatch (new old : List Int) : Bool :=
  (new.zip old).any (fun p => p.1 != p.2)

/-- Append an element to the last inner list
(panelprobschrom[len(panelprobschrom)-1].append(...)). The source indexes the
last slot, which exists whenever a location slot has been created before any
record data is stored; our inputs always reach this point with a slot. -/
def appendLast (ls : List (List α)) (a : α) : List (List α) :=
  ls.dropLast ++ [ls.getLastD [] ++ [a]]

/-- Tail of a record's processing: the panel-count check (fatal "number of
panels varies") and the appends of hapindex, probs and rho. -/
def finishRecord (npanel : Nat) (st : ParseState) (r : PanelRecord) :
    Except String ParseState :=
  if r.probs.length ≠ npanel then .error "number of panels varies"
  else .ok { st with
    hapindices := st.hapindices ++ [r.hapindex],
    panelprobschrom := appendLast st.panelprobschrom r.probs,
    rhovalschrom := appendLast st.rhovalschrom r.rho }

/-- One iteration of the reading loop for a non-comment line: the
chromosome-change block (flush the per-chromosome tables), the new-location
block (new slot, haplotype-index consistency check, fatal
"haplotype indicies inconsistent across positions"), then finishRecord. -/
def parseStep (npanel : Nat) (st : ParseState) (r : PanelRecord) :
    Except String ParseState :=
  let st1 :=
    if some r.chrom ≠ st.oldchrom then
      { st with
        oldchrom := some r.chrom,
        panelprobs := if 0 < st.panelprobschrom.length
          then st.panelprobs ++ st.panelprobschrom else st.panelprobs,
        rhovals := if 0 < st.panelprobschrom.length
          then st.rhovals ++ st.rhovalschrom else st.rhovals,
        panelprobschrom := [],
        rhovalschrom := [] }
    else st
  if r.locindex ≠ st1.oldlocindex then
    if st1.hapindices ≠ [] ∧ hapMismatch st1.hapindices st1.oldhapindices then
      .error "haplotype indicies inconsistent across positions"
    else
      finishRecord npanel
        { st1 with
          oldlocindex := r.locindex,
          panelprobschrom := st1.panelprobschrom ++ [[]],
          rhovalschrom := st1.rhovalschrom ++ [[]],
          oldhapindices := st1.hapindices,
          hapindices := [] } r
  else
    finishRecord npanel st1 r

/-- The whole reading loop over the body records. -/
def runParse (npanel : Nat) (records : List PanelRecord) :
    Except String ParseState :=
  records.foldlM (parseStep npanel) initState

/-- The final flush after the loop (panelprobs.extend(panelprobschrom);
rhovals.extend(rhovalschrom)), giving the tables the rest of the script
consumes (panelprobs, rhovals). -/
def finalTables (st : ParseState) :
    List (List (List ℚ)) × List (List ℚ) :=
  (st.panelprobs ++ st.panelprobschrom, st.rhovals ++ st.rhovalschrom)

/-- Parsed tables of the whole input:
location-major panel probabilities and recombination values. -/
def processRecords (npanel : Nat) (records : List PanelRecord) :
    Except String (List (List (List ℚ)) × List (List ℚ)) :=
  (runParse npanel records).map finalTables

instance exceptDecEq {ε α : Type} [DecidableEq ε] [DecidableEq α] :
    DecidableEq (Except ε α) := fun x y =>
  match x, y with
  | .ok a, .ok b =>
      if h : a = b then isTrue (by rw [h]) else isFalse (by simp [h])
  | .error a, .error b =>
      if h : a = b then isTrue (by rw [h]) else isFalse (by simp [h])
  | .ok _, .error _ => isFalse (by simp)
  | .error _, .ok _ => isFalse (by simp)

/-- An input whose first location carries haplotypes 0 and 1 while its second
location carries only haplotype 0: consecutive locations with different
haplotype-index sequences, one a proper prefix of the other. -/
def prefixMismatchInput : List PanelRecord :=
  [⟨0, "1", 0, 0, [1]⟩, ⟨0, "1", 1, 0, [2]⟩, ⟨1, "1", 0, 0, [3]⟩]

/-- C2 counterexample: on an input whose two consecutive locations have
haplotype-index sequences [0, 1] and then [0] (a proper prefix, lengths
differ), the reading loop completes without any error: zip truncates the
comparison to the shorter sequence, so the mismatch is never seen. The final
state records the two differing sequences ([0, 1] in oldhapindices, [0] in
hapindices) and two location slots of different widths. -/
theorem parse_prefix_mismatch_no_error_cx :
    runParse 1 prefixMismatchInput = Except.ok
      { panelprobs := [], rhovals := [],
        panelprobschrom := [[[1], [2]], [[3]]],
        rhovalschrom := [[0, 0], [0]],
        oldlocindex := 1, hapindices := [0], oldhapindices := [0, 1],
        oldchrom := some "1" } := by
  decide

/-- C2 amended: the check the loop actually performs. When a record opens a
new location, the just-finished location's haplotype-index sequence is
compared with the previous one zip-wise: if the two sequences differ at some
shared position, the loop raises the fatal error
"haplotype indicies inconsistent across positions" (a difference only in
length, one sequence a prefix of the other, is not detected). -/
theorem parseStep_mismatch_error (npanel : Nat) (st : ParseState)
    (r : PanelRecord) (hloc : r.locindex ≠ st.oldlocindex)
    (hne : st.hapindices ≠ [])
    (hmis : hapMismatch st.hapindices st.oldhapindices = true) :
    parseStep npanel st r
      = .error "haplotype indicies inconsistent across positions" := by
  unfold parseStep
  by_cases hc : some r.chrom ≠ st.oldchrom <;>
    simp [hc, hloc, hne, hmis]

/-- A loop state in which the just-finished location had haplotype sequence
[0] while the previous location had [1]: a mismatch at shared position 0. -/
def mismatchState : ParseState :=
  { initState with oldlocindex := 0, hapindices := [0], oldhapindices := [1] }

/-- Witness for the amended C2: the state holding the finished sequence [0]
against the previous [1] (mismatch at shared position 0) errors on the next
new-location record. -/
theorem parseStep_mismatch_error_witness :
    ((1 : Int) ≠ mismatchState.oldlocindex)
    ∧ (mismatchState.hapindices ≠ [])
    ∧ hapMismatch mismatchState.hapindices mismatchState.oldhapindices = true
    ∧ parseStep 1 mismatchState ⟨1, "1", 0, 0, [1]⟩
      = .error "haplotype indicies inconsistent across positions" :=
  ⟨by decide, by decide, by decide,
    parseStep_mismatch_error 1 _ _ (by decide) (by decide) (by decide)⟩

/-! ## Switch-rate estimator (make_rho, lines 100-112)

make_rho flattens the label matrix and the recombination matrix in the same
(location-major, haplotype-minor) order, aborts on a length mismatch
("trouble in make_rho"), and for each ancestry i averages the recombination
values at the flat indices labeled i; an ancestry with no assignment divides
by zero (Python ZeroDivisionError). -/

/-- The per-ancestry selection of make_rho:
rhoi_vec = [rho_vec[index] for index in range(len(labels)) if
labels[index]==i]. -/
def rhoComponentVec (labels : List Nat) (rho_vec : List ℚ) (i : Nat) :
    List ℚ :=
  (List.range labels.length).filterMap (fun k =>
    if labels.getD k 0 = i then some (rho_vec.getD k 0) else none)

/-- The accumulation loop of make_rho over the ancestry indices, aborting at
the first empty selection (the source's division by len(rhoi_vec) = 0). -/
def rhoLoop (labels : List Nat) (rho_vec : List ℚ) :
    List Nat → Except String (List ℚ)
  | [] => .ok []
  | i :: rest =>
    if (rhoComponentVec labels rho_vec i).length = 0 then
      .error "ZeroDivisionError"
    else
      match rhoLoop labels rho_vec rest with
      | .error e => .error e
      | .ok tl => .ok ((rhoComponentVec labels rho_vec i).sum
          / ((rhoComponentVec labels rho_vec i).length : ℚ) :: tl)

/-- The function make_rho. -/
def make_rho (label_matrix : List (List Nat)) (rho_matrix : List (List ℚ))
    (nanc : Nat) : Except String (List ℚ) :=
  if label_matrix.flatten.length ≠ rho_matrix.flatten.length then
    .error "trouble in make_rho"
  else rhoLoop label_matrix.flatten rho_matrix.flatten (List.range nanc)

/-- Stated from the spec's contract, for comparison with make_rho: the
recombination values of the (location, haplotype) pairs labeled i, read off
the two flattened tables paired position by position. -/
def filterRho (labels : List Nat) (rho_vec : List ℚ) (i : Nat) : List ℚ :=
  (labels.zip rho_vec).filterMap (fun p => if p.1 = i then some p.2 else none)

/-- Stated from the spec's contract: the arithmetic mean of the recombination
values over every (location, haplotype) pair labeled i. -/
def meanRhoFlat (labels : List Nat) (rho_vec : List ℚ) (i : Nat) : ℚ :=
  (filterRho labels rho_vec i).sum / ((filterRho labels rho_vec i).length : ℚ)

theorem filterRho_cons (a : Nat) (b : ℚ) (ls : List Nat) (rs : List ℚ)
    (i : Nat) :
    filterRho (a :: ls) (b :: rs) i
      = if a = i then b :: filterRho ls rs i else filterRho ls rs i := by
  simp only [filterRho, List.zip_cons_cons, List.filterMap_cons]
  split <;> simp_all

theorem rhoComponentVec_eq_filterRho (ls : List Nat) (rs : List ℚ) (i : Nat)
    (h : ls.length = rs.length) :
    rhoComponentVec ls rs i = filterRho ls rs i := by
  induction ls generalizing rs with
  | nil =>
    simp [rhoComponentVec, filterRho]
  | cons a ls ih =>
    cases rs with
    | nil => simp at h
    | cons b rs =>
      have h' : ls.length = rs.length := by simpa using h
      have hfun : ((fun k =>
            if (a :: ls).getD k 0 = i then some ((b :: rs).getD k 0) else none)
              ∘ Nat.succ)
          = (fun k => if ls.getD k 0 = i then some (rs.getD k 0) else none) :=
        by
          funext k
          simp [Function.comp]
      rw [rhoComponentVec, List.length_cons, List.range_succ_eq_map,
        List.filterMap_cons, List.filterMap_map, hfun, filterRho_cons]
      simp only [List.getD_cons_zero]
      rw [← rhoComponentVec, ih rs h']
      by_cases hai : a = i <;> simp [hai]

theorem filterRho_ne_nil (ls : List Nat) (rs : List ℚ) (i : Nat)
    (h : ls.length = rs.length) (hi : i ∈ ls) :
    filterRho ls rs i ≠ [] := by
  induction ls generalizing rs with
  | nil => simp at hi
  | cons a ls ih =>
    cases rs with
    | nil => simp at h
    | cons b rs =>
      have h' : ls.length = rs.length := by simpa using h
      rw [filterRho_cons]
      rcases List.mem_cons.mp hi with rfl | hi'
      · simp
      · by_cases hai : a = i
        · simp [hai]
        · simpa [hai] using ih rs h' hi'

theorem rhoLoop_map (labels : List Nat) (rho_vec : List ℚ)
    (hlen : labels.length = rho_vec.length) (l : List Nat)
    (hl : ∀ i ∈ l, i ∈ labels) :
    rhoLoop labels rho_vec l = .ok (l.map (meanRhoFlat labels rho_vec)) := by
  induction l with
  | nil => simp [rhoLoop]
  | cons i rest ih =>
    have hi : i ∈ labels := hl i (List.mem_cons_self i rest)
    have hv : rhoComponentVec labels rho_vec i = filterRho labels rho_vec i :=
      rhoComponentVec_eq_filterRho labels rho_vec i hlen
    have hne : (filterRho labels rho_vec i).length ≠ 0 :=
      fun hz => filterRho_ne_nil labels rho_vec i hlen hi
        (List.length_eq_zero.mp hz)
    rw [rhoLoop, hv, if_neg hne, ih (fun j hj => hl j (List.mem_cons_of_mem i hj))]
    simp [meanRhoFlat]

/-- C6: whenever the flattened label table and the flattened recombination
table have equal length and every ancestry below nanc receives at least one
assignment, make_rho returns, for each ancestry i in order, exactly the
arithmetic mean of the recombination values of the (location, haplotype)
pairs labeled i. -/
theorem make_rho_is_mean (lm : List (List Nat)) (rm : List (List ℚ))
    (nanc : Nat) (hlen : lm.flatten.length = rm.flatten.length)
    (hne : ∀ i, i < nanc → i ∈ lm.flatten) :
    make_rho lm rm nanc
      = .ok ((List.range nanc).map (meanRhoFlat lm.flatten rm.flatten)) := by
  rw [make_rho, if_neg (by omega)]
  exact rhoLoop_map lm.flatten rm.flatten hlen (List.range nanc)
    (fun i hi => hne i (List.mem_range.mp hi))

/-- Witness for C6 at the spec's concrete instance: labels split evenly, with
recombination values [0.1, 0.1] for ancestry 0 and [0.3, 0.5] for ancestry 1;
the switch-rate vector is [0.1, 0.4]. -/
theorem make_rho_is_mean_witness :
    ([[0, 0], [1, 1]] : List (List Nat)).flatten.length
        = ([[(1:ℚ)/10, 1/10], [3/10, 1/2]] : List (List ℚ)).flatten.length
    ∧ (∀ i, i < 2 → i ∈ ([[0, 0], [1, 1]] : List (List Nat)).flatten)
    ∧ make_rho [[0, 0], [1, 1]] [[(1:ℚ)/10, 1/10], [3/10, 1/2]] 2
        = .ok [1/10, 2/5] :=
  ⟨by decide, by decide, by
    rw [make_rho_is_mean [[0, 0], [1, 1]] [[(1:ℚ)/10, 1/10], [3/10, 1/2]] 2
      (by decide) (by decide)]
    norm_num [List.range_succ, meanRhoFlat, filterRho, List.zip_cons_cons,
      List.filterMap_cons, List.filterMap_nil]⟩

/-! ## Correlation diagnostics (autoc, lines 116-133)

autoc builds, for each ancestry pair (i1, i2) with i2 ≤ i1, the indicator
vectors vec0 (label equals i1, locations [0, N-lag)) and veclag (label equals
i2, locations [lag, N)), concatenated over haplotypes, and correlates them
with np.corrcoef. Entries are stored rounded to 3 decimals; the running
max/min comparisons use the unrounded coefficient. -/

/-- vec0 of autoc: for j in range(nhaps),
vec0 += [1*(x[j]==i1) for x in labelmatrix[:-lag]] (lag is 1 in the script,
so labelmatrix[:-lag] is the first length-lag locations). -/
def vec0 (labelmatrix : List (List Nat)) (i1 lag nhaps : Nat) : List ℝ :=
  (List.range nhaps).flatMap (fun j =>
    (labelmatrix.take (labelmatrix.length - lag)).map
      (fun x => if x.getD j 0 = i1 then (1 : ℝ) else 0))

/-- veclag of autoc: for j in range(nhaps),
veclag += [1*(x[j]==i2) for x in labelmatrix[lag:]]. -/
def veclag (labelmatrix : List (List Nat)) (i2 lag nhaps : Nat) : List ℝ :=
  (List.range nhaps).flatMap (fun j =>
    (labelmatrix.drop lag).map
      (fun x => if x.getD j 0 = i2 then (1 : ℝ) else 0))

def dot (xs ys : List ℝ) : ℝ := (List.zipWith (· * ·) xs ys).sum

/-- Pearson correlation coefficient of two equal-length samples
(np.corrcoef(vec0, veclag)[0][1]), in the n-scaled form
r = (nΣxy − ΣxΣy) / sqrt((nΣx² − (Σx)²)(nΣy² − (Σy)²)). -/
noncomputable def corrcoef (xs ys : List ℝ) : ℝ :=
  ((xs.length : ℝ) * dot xs ys - xs.sum * ys.sum) /
    Real.sqrt (((xs.length : ℝ) * dot xs xs - xs.sum ^ 2) *
      ((ys.length : ℝ) * dot ys ys - ys.sum ^ 2))

/-- Python's round(ac, 3) as exact real rounding to the nearest multiple of
1/1000. Python rounds ties to even while round here rounds them up; no
coefficient this development evaluates sits on a tie. -/
noncomputable def round3 (x : ℝ) : ℝ := (round (x * 1000) : ℤ) / 1000

/-- The three accumulators of autoc: the correlation dictionary (an
association list in insertion order, keys (i2, i1) all distinct), the running
maximum cross-correlation (initialized -1.0) and the running minimum
auto-correlation (initialized 1.0). -/
structure AutocFull where
  acs : List ((Nat × Nat) × ℝ)
  maxcrosscor : ℝ
  minautocor : ℝ

/-- autoc either short-circuits on a too-short location sequence (return 0.0,
a bare float) or returns the triple (acs, maxcrosscor, minautocor). -/
inductive AutocResult where
  | degenerate (v : ℝ)
  | full (r : AutocFull)

/-- The unrounded coefficient ac of one loop iteration of autoc for the
ancestry pair p = (i1, i2). -/
noncomputable def acOf (labelmatrix : List (List Nat)) (nhaps lag : Nat)
    (p : Nat × Nat) : ℝ :=
  corrcoef (vec0 labelmatrix p.1 lag nhaps) (veclag labelmatrix p.2 lag nhaps)

/-- One loop iteration of autoc: store the rounded coefficient under key
(i2, i1), update maxcrosscor on off-diagonal pairs and minautocor on diagonal
pairs using the unrounded coefficient. -/
noncomputable def autocStep (labelmatrix : List (List Nat)) (nhaps lag : Nat)
    (st : AutocFull) (p : Nat × Nat) : AutocFull :=
  { acs := st.acs ++ [((p.2, p.1), round3 (acOf labelmatrix nhaps lag p))],
    maxcrosscor :=
      if p.1 ≠ p.2 ∧ st.maxcrosscor < acOf labelmatrix nhaps lag p
        then acOf labelmatrix nhaps lag p else st.maxcrosscor,
    minautocor :=
      if p.1 = p.2 ∧ acOf labelmatrix nhaps lag p < st.minautocor
        then acOf labelmatrix nhaps lag p else st.minautocor }

/-- The iteration order of autoc's two nested loops:
for i1 in range(nanc): for i2 in range(i1+1). -/
def pairList (nanc : Nat) : List (Nat × Nat) :=
  (List.range nanc).flatMap (fun i1 =>
    (List.range (i1 + 1)).map (fun i2 => (i1, i2)))

/-- The function autoc: 0.0 when fewer than lag+2 locations, else the folded
triple over all ancestry pairs, with nhaps = len(labelmatrix[0]). -/
noncomputable def autoc (labelmatrix : List (List Nat)) (nanc lag : Nat) :
    AutocResult :=
  if labelmatrix.length < lag + 2 then .degenerate 0
  else .full ((pairList nanc).foldl
    (autocStep labelmatrix (labelmatrix.headD []).length lag)
    { acs := [], maxcrosscor := -1, minautocor := 1 })

/-- The keys of the returned correlation dictionary, none when autoc took the
degenerate branch. -/
def AutocResult.acsKeys : AutocResult → Option (List (Nat × Nat))
  | .degenerate _ => none
  | .full r => some (r.acs.map Prod.fst)

/-- The returned maximum cross-correlation, none on the degenerate branch. -/
def AutocResult.maxCross : AutocResult → Option ℝ
  | .degenerate _ => none
  | .full r => some r.maxcrosscor

/-- The module-level call site
acs,maxcrosscor,minautocor = autoc(thislabelmatrix,nanc,lag): unpacking the
returned value into three names succeeds only on the triple; on the bare
float 0.0 of the degenerate branch Python raises
TypeError: cannot unpack non-iterable float (modeled as none). -/
def unpack3 : AutocResult → Option (List ((Nat × Nat) × ℝ) × ℝ × ℝ)
  | .degenerate _ => none
  | .full r => some (r.acs, r.maxcrosscor, r.minautocor)

/-- C7: on a label matrix with fewer than lag+2 = 3 locations (lag fixed at
1), autoc returns the bare degenerate value 0.0 at once, for any ancestry
count, performing no correlation arithmetic. -/
theorem autoc_short_degenerate (m : List (List Nat)) (nanc : Nat)
    (h : m.length < 3) :
    autoc m nanc 1 = .degenerate 0 := by
  simp [autoc, h]

/-- Witness for C7 at a concrete 2-location label matrix. -/
theorem autoc_short_degenerate_witness :
    ([[0], [1]] : List (List Nat)).length < 3
      ∧ autoc [[0], [1]] 2 1 = .degenerate 0 :=
  ⟨by decide, autoc_short_degenerate [[0], [1]] 2 (by decide)⟩

/-- C4 (code behavior at the failing input): with fewer than 3 locations the
call site acs,maxcrosscor,minautocor = autoc(...) receives the bare float 0.0
and the unpacking fails (TypeError), so the run terminates before the model
file body is written instead of producing a complete model file. -/
theorem autoc_short_unpack_fails (m : List (List Nat)) (nanc : Nat)
    (h : m.length < 3) :
    unpack3 (autoc m nanc 1) = none := by
  simp [autoc, h, unpack3]

/-- Witness for the C4 behavior at a concrete 2-location label matrix. -/
theorem autoc_short_unpack_fails_witness :
    ([[0], [1]] : List (List Nat)).length < 3
      ∧ unpack3 (autoc [[0], [1]] 5 1) = none :=
  ⟨by decide, autoc_short_unpack_fails [[0], [1]] 5 (by decide)⟩

/-- C8: for K = 1 and any label matrix with at least lag+2 = 3 locations, the
correlation dictionary holds exactly the single diagonal key (0, 0) and the
returned maximum cross-correlation is the initializer -1.0 unchanged. -/
theorem pairList_one : pairList 1 = [(0, 0)] := by decide

theorem autoc_K1_single_entry (m : List (List Nat)) (h : 3 ≤ m.length) :
    (autoc m 1 1).acsKeys = some [(0, 0)]
      ∧ (autoc m 1 1).maxCross = some (-1) := by
  have h' : ¬ m.length < 1 + 2 := by omega
  constructor <;>
    simp [autoc, h', pairList_one, autocStep, AutocResult.acsKeys,
      AutocResult.maxCross]

/-- Witness for C8 at a concrete 3-location label matrix. -/
theorem autoc_K1_single_entry_witness :
    3 ≤ ([[0], [0], [0]] : List (List Nat)).length
      ∧ ((autoc [[0], [0], [0]] 1 1).acsKeys = some [(0, 0)]
        ∧ (autoc [[0], [0], [0]] 1 1).maxCross = some (-1)) :=
  ⟨by decide, autoc_K1_single_entry [[0], [0], [0]] (by decide)⟩

/-- A three-record input lying on two chromosomes: locations 0 and 1 on
chromosome "1", location 2 on chromosome "2". -/
def twoChromInput : List PanelRecord :=
  [⟨0, "1", 0, 0, [1]⟩, ⟨1, "1", 0, 0, [2]⟩, ⟨2, "2", 0, 0, [3]⟩]

/-- The same three records all on chromosome "1". -/
def oneChromInput : List PanelRecord :=
  [⟨0, "1", 0, 0, [1]⟩, ⟨1, "1", 0, 0, [2]⟩, ⟨2, "1", 0, 0, [3]⟩]

/-- C3 counterexample: the reader flattens the two chromosomes of
twoChromInput into one three-slot location list (slot 2 holds the
chromosome-"2" record's data), and autoc's lag-1 sample vectors pair flat
index 1 with flat index 2 — the last location of chromosome "1" with the
first location of chromosome "2". With the 3x1 label matrix [[5],[6],[7]],
vec0 for ancestry 6 is the indicators of locations 0,1 and veclag for
ancestry 7 the indicators of locations 1,2: sample index 1 of the correlated
pair is (indicator of location 1, indicator of location 2), locations on
different chromosomes. -/
theorem autoc_cross_chrom_adjacent_cx :
    processRecords 1 twoChromInput
        = .ok ([[[1]], [[2]], [[3]]], [[0], [0], [0]])
      ∧ vec0 [[5], [6], [7]] 6 1 1 = [0, 1]
      ∧ veclag [[5], [6], [7]] 7 1 1 = [0, 1] := by
  refine ⟨by decide, ?_, ?_⟩ <;>
    simp [vec0, veclag, List.range_succ]

/-- C3 amended: chromosome boundaries are invisible to the lag computation.
The reader concatenates per-chromosome location blocks into one flat list, so
the two-chromosome input parses to exactly the tables of the equivalent
one-chromosome input, and autoc processes the resulting label matrix as one
unbroken sequence (pairing across the chromosome boundary). -/
theorem parse_chrom_boundary_invisible :
    processRecords 1 twoChromInput = processRecords 1 oneChromInput
      ∧ processRecords 1 oneChromInput
        = .ok ([[[1]], [[2]], [[3]]], [[0], [0], [0]]) := by
  constructor <;> decide

/-! ## Emission-error parameter theta (module level, lines 178-181)

mylambda = 1/(np.log(nrefhaps)+0.5); theta = mylambda/(2*mylambda+2*nrefhaps);
the model file then gets nanc rows each holding npanel copies of theta. -/

noncomputable def mylambda (nrefhaps : ℕ) : ℝ :=
  1 / (Real.log nrefhaps + 1 / 2)

noncomputable def theta (nrefhaps : ℕ) : ℝ :=
  mylambda nrefhaps / (2 * mylambda nrefhaps + 2 * nrefhaps)

/-- The emitted K×P emission-error matrix: nanc rows, each npanel copies of
one scalar t (the loop print("\t".join([str(theta)]*npanel)) over range(nanc)). -/
def thetaRows (nanc npanel : ℕ) (t : ℝ) : List (List ℝ) :=
  List.replicate nanc (List.replicate npanel t)

theorem flatten_replicate_replicate (m k : ℕ) (a : ℝ) :
    (List.replicate m (List.replicate k a)).flatten
      = List.replicate (m * k) a := by
  induction m with
  | zero => simp
  | succ m ih =>
    rw [List.replicate_succ, List.flatten_cons, ih, ← List.replicate_add,
      Nat.succ_mul, Nat.add_comm]

theorem theta_denom_pos (n : ℕ) (hn : 1 ≤ n) :
    0 < 2 + (n:ℝ) + 2 * n * Real.log n := by
  have hL : (0:ℝ) ≤ Real.log n := Real.log_nonneg (by exact_mod_cast hn)
  have h1 : (0:ℝ) ≤ (n:ℝ) := Nat.cast_nonneg n
  have h2 : (0:ℝ) ≤ 2 * (n:ℝ) * Real.log n :=
    mul_nonneg (by positivity) hL
  linarith

theorem theta_eq (n : ℕ) (hn : 1 ≤ n) :
    theta n = 1 / (2 + n + 2 * n * Real.log n) := by
  have hL : (0:ℝ) ≤ Real.log n := Real.log_nonneg (by exact_mod_cast hn)
  have hc : (0:ℝ) < Real.log n + 1 / 2 := by linarith
  have hD : (0:ℝ) < 2 + (n:ℝ) + 2 * n * Real.log n := theta_denom_pos n hn
  have hinv : (0:ℝ) < 1 / (Real.log n + 1 / 2) := by positivity
  have hn0 : (0:ℝ) ≤ (n:ℝ) := Nat.cast_nonneg n
  have hE : (0:ℝ) < 2 * (1 / (Real.log n + 1 / 2)) + 2 * n := by linarith
  rw [theta, mylambda, div_eq_div_iff (ne_of_gt hE) (ne_of_gt hD)]
  field_simp
  ring

/-- C9: the emitted emission-error matrix carries one identical scalar
theta = lambda/(2*lambda + 2*nrefhaps), lambda = 1/(ln(nrefhaps)+0.5), in
every one of its nanc*npanel cells, and theta strictly increases as the total
reference-haplotype count decreases: for 2 ≤ m < n, theta n < theta m. -/
theorem theta_matrix_uniform_and_mono (nanc npanel m n : ℕ)
    (hm : 2 ≤ m) (hmn : m < n) :
    (thetaRows nanc npanel (theta n)).flatten
        = List.replicate (nanc * npanel) (theta n)
      ∧ theta n < theta m := by
  refine ⟨flatten_replicate_replicate nanc npanel (theta n), ?_⟩
  have hm1 : 1 ≤ m := le_trans (by norm_num) hm
  have hn1 : 1 ≤ n := le_trans hm1 (le_of_lt hmn)
  rw [theta_eq m hm1, theta_eq n hn1]
  have hmr : (0:ℝ) < (m:ℝ) := by exact_mod_cast hm1
  have hcast : (m:ℝ) < (n:ℝ) := by exact_mod_cast hmn
  have hlogm : (0:ℝ) ≤ Real.log m := Real.log_nonneg (by exact_mod_cast hm1)
  have hlogs : Real.log m ≤ Real.log n :=
    Real.log_le_log hmr (le_of_lt hcast)
  have hmul : (m:ℝ) * Real.log m ≤ (n:ℝ) * Real.log n :=
    mul_le_mul (le_of_lt hcast) hlogs hlogm (by linarith)
  exact one_div_lt_one_div_of_lt (theta_denom_pos m hm1) (by linarith)

/-- Witness for C9 at nanc = 3, npanel = 4, reference-haplotype counts 2 and
3: the 3×4 matrix for n = 3 is twelve copies of theta 3, and theta 3 <
theta 2. -/
theorem theta_matrix_uniform_and_mono_witness :
    (2 ≤ 2 ∧ 2 < 3)
      ∧ ((thetaRows 3 4 (theta 3)).flatten = List.replicate (3 * 4) (theta 3)
        ∧ theta 3 < theta 2) :=
  ⟨⟨le_refl 2, by norm_num⟩,
    theta_matrix_uniform_and_mono 3 4 2 3 (le_refl 2) (by norm_num)⟩

/-! ## Concrete evaluation of autoc: rounded entries vs unrounded extrema (C10)

On the 7-location, 1-haplotype label matrix below, every correlation
coefficient is exactly 1/3 or -1/3, so each stored (rounded) dictionary entry
is 0.333 or -0.333 while the returned extrema keep the unrounded values. -/

theorem sqrt81 : Real.sqrt 81 = 9 := by
  rw [show (81:ℝ) = 9 ^ 2 by norm_num]
  exact Real.sqrt_sq (by norm_num)

theorem corr_third : corrcoef [1, 1, 1, 0, 0, 0] [1, 1, 0, 0, 0, 1] = 1/3 := by
  rw [corrcoef]
  norm_num [dot, sqrt81]

theorem corr_neg_third :
    corrcoef [0, 0, 0, 1, 1, 1] [1, 1, 0, 0, 0, 1] = -(1/3) := by
  rw [corrcoef]
  norm_num [dot, sqrt81]

theorem corr_third2 :
    corrcoef [0, 0, 0, 1, 1, 1] [0, 0, 1, 1, 1, 0] = 1/3 := by
  rw [corrcoef]
  norm_num [dot, sqrt81]

theorem round3_third : round3 (1/3) = 333/1000 := by
  have h : (⌊(1:ℝ)/3 * 1000 + 1/2⌋ : ℤ) = 333 := by
    apply Int.floor_eq_iff.mpr
    constructor <;> norm_num
  rw [round3, round_eq, h]
  norm_num

theorem round3_neg_third : round3 (-(1/3)) = -(333/1000) := by
  have h : (⌊(-(1:ℝ)/3) * 1000 + 1/2⌋ : ℤ) = -333 := by
    apply Int.floor_eq_iff.mpr
    constructor <;> norm_num
  rw [round3, round_eq]
  rw [show (-(1:ℝ)/3) * 1000 = -(1/3) * 1000 by ring] at h
  rw [h]
  norm_num

/-- Seven locations on one haplotype with labels 0,0,0,1,1,1,0. -/
def c10Labels : List (List Nat) := [[0], [0], [0], [1], [1], [1], [0]]

theorem pairList_two : pairList 2 = [(0, 0), (1, 0), (1, 1)] := by decide

/-- C10: autoc stores the coefficients rounded to 3 decimals in the
correlation dictionary but compares the unrounded coefficients for the
returned extrema. On c10Labels with K = 2 every coefficient is 1/3 or -1/3:
the dictionary holds 0.333 / -0.333 / 0.333, while the returned maximum
cross-correlation -1/3 and minimum auto-correlation 1/3 differ from every
rounded entry of the dictionary. -/
theorem autoc_rounded_entries_vs_raw_extrema :
    (autoc c10Labels 2 1 = .full
      { acs := [((0, 0), 333/1000), ((0, 1), -(333/1000)),
                ((1, 1), 333/1000)],
        maxcrosscor := -(1/3), minautocor := 1/3 })
      ∧ (-(1/3) : ℝ) ≠ 333/1000 ∧ (-(1/3) : ℝ) ≠ -(333/1000)
      ∧ ((1:ℝ)/3) ≠ 333/1000 ∧ ((1:ℝ)/3) ≠ -(333/1000) := by
  refine ⟨?_, by norm_num, by norm_num, by norm_num, by norm_num⟩
  have hv0 : vec0 c10Labels 0 1 1 = [1, 1, 1, 0, 0, 0] := by
    simp [c10Labels, vec0, List.range_succ]
  have hv1 : vec0 c10Labels 1 1 1 = [0, 0, 0, 1, 1, 1] := by
    simp [c10Labels, vec0, List.range_succ]
  have hl0 : veclag c10Labels 0 1 1 = [1, 1, 0, 0, 0, 1] := by
    simp [c10Labels, veclag, List.range_succ]
  have hl1 : veclag c10Labels 1 1 1 = [0, 0, 1, 1, 1, 0] := by
    simp [c10Labels, veclag, List.range_succ]
  have ha1 : acOf c10Labels 1 1 (0, 0) = 1/3 := by
    rw [acOf]
    rw [show ((0:ℕ), (0:ℕ)).1 = 0 from rfl,
      show ((0:ℕ), (0:ℕ)).2 = 0 from rfl, hv0, hl0, corr_third]
  have ha2 : acOf c10Labels 1 1 (1, 0) = -(1/3) := by
    rw [acOf]
    rw [show ((1:ℕ), (0:ℕ)).1 = 1 from rfl,
      show ((1:ℕ), (0:ℕ)).2 = 0 from rfl, hv1, hl0, corr_neg_third]
  have ha3 : acOf c10Labels 1 1 (1, 1) = 1/3 := by
    rw [acOf]
    rw [show ((1:ℕ), (1:ℕ)).1 = 1 from rfl,
      show ((1:ℕ), (1:ℕ)).2 = 1 from rfl, hv1, hl1, corr_third2]
  have hh : ((c10Labels.headD []).length) = 1 := by simp [c10Labels]
  rw [autoc, if_neg (by simp [c10Labels]), pairList_two, hh]
  rw [List.foldl_cons, List.foldl_cons, List.foldl_cons, List.foldl_nil]
  simp only [autocStep, ha1, ha2, ha3, round3_third, round3_neg_third]
  norm_num

end FlareModel
